import Mathlib

/-!
Verification of the API-key credential store and request gatekeeper of
`antigravity-claude-proxy` (files `src/auth/api-key-manager.js` and
`src/auth/api-key-middleware.js`), via a shallow embedding.

Modelling conventions:
* JS strings are Lean `String`; JS `String.prototype.startsWith` and
  `substring(0, n)` are modelled on the character list (`jsStartsWith`,
  `jsSubstring0`), which agrees with JS on the ASCII data used here.
* The SHA-256 digest from the `crypto` library is an external dependency;
  it is modelled as an explicit function parameter `h : String → String`
  (the hex digest), threaded through every operation that hashes.
* `randomBytes` output and `new Date().toISOString()` are external inputs,
  passed in explicitly (`List Nat` of byte values, a timestamp string).
* The backing document `api-keys.json` is a `FileContent`: missing,
  corrupt (unparseable), or storing a parsed `KeysData`.  A mutating
  operation returns, besides its result, the `Option KeysData` it wrote
  (`none` = `saveKeys` was not called); `applyWrite` applies that effect
  to the file.
-/

/-- JsValue models the possible JavaScript values reaching `validateKey`:
`null`/`undefined`, an actual string, or some other non-string value. -/
inductive JsValue where
  | null
  | str (s : String)
  | nonString
deriving DecidableEq

/-- KeyRecord is one persisted key record, as stored in `api-keys.json`
(fields `id`, `name`, `keyHash`, `keyPrefix`, `createdAt`, `enabled`;
the JS `keyPrefix` field is named `keyPfx` here). -/
structure KeyRecord where
  id : String
  name : String
  keyHash : String
  keyPfx : String
  createdAt : String
  enabled : Bool
deriving DecidableEq

/-- KeysData is the parsed backing document: `{ keys: [...] }`. -/
structure KeysData where
  keys : List KeyRecord
deriving DecidableEq

/-- ValInfo is the projection returned by `validateKey` on a match:
`{ id, name, enabled, createdAt }` — no hash field, no prefix field. -/
structure ValInfo where
  id : String
  name : String
  enabled : Bool
  createdAt : String
deriving DecidableEq

/-- ListedKey is the projection returned by `listKeys`:
`{ id, name, keyPrefix, enabled, createdAt }` — no hash field. -/
structure ListedKey where
  id : String
  name : String
  keyPfx : String
  enabled : Bool
  createdAt : String
deriving DecidableEq

/-- FileContent is the state of the backing document on disk. -/
inductive FileContent where
  | missing
  | corrupt
  | stored (data : KeysData)
deriving DecidableEq

/-- jsStartsWith models JavaScript `s.startsWith(p)` on character data. -/
def jsStartsWith (s p : String) : Bool :=
  p.toList.isPrefixOf s.toList

/-- jsSubstring0 models JavaScript `s.substring(0, n)` (ASCII data). -/
def jsSubstring0 (s : String) (n : Nat) : String :=
  String.mk (s.toList.take n)

/-- KEY_PFX is the constant `KEY_PREFIX = 'sk-ant-'` of the manager. -/
def KEY_PFX : String := "sk-ant-"

/-- KEY_RANDOM_LENGTH is the constant of the same name: 48. -/
def KEY_RANDOM_LENGTH : Nat := 48

/-- KEY_CHARS is the alphabet literal `chars` inside `generateApiKey`. -/
def KEY_CHARS : List Char :=
  "abcdefghijklmnopqrstuvwxyzABCDEFGHIJKLMNOPQRSTUVWXYZ0123456789".toList

/-- generateApiKey models `generateApiKey()`: the 48 bytes produced by
`randomBytes(KEY_RANDOM_LENGTH)` are the explicit argument `bytes`;
byte `i` selects `chars[bytes[i] % chars.length]`. -/
def generateApiKey (bytes : List Nat) : String :=
  KEY_PFX ++ String.mk ((List.range KEY_RANDOM_LENGTH).map
    (fun i => KEY_CHARS.getD ((bytes.getD i 0) % KEY_CHARS.length) 'a'))

/-- hashKey models `hashKey(key)`; the SHA-256 hex digest is the
parameter `h`, and the result carries the `sha256:` tag. -/
def hashKey (h : String → String) (key : String) : String :=
  "sha256:" ++ h key

/-- HEX_CHARS is the hexadecimal alphabet used by `toString('hex')`. -/
def HEX_CHARS : List Char := "0123456789abcdef".toList

/-- byteToHex renders one byte as two lowercase hex characters. -/
def byteToHex (b : Nat) : List Char :=
  [HEX_CHARS.getD ((b % 256) / 16) '0', HEX_CHARS.getD (b % 16) '0']

/-- bytesToHex models `Buffer.toString('hex')` on a byte list. -/
def bytesToHex (bs : List Nat) : String :=
  String.mk ((bs.map byteToHex).flatten)

/-- generateKeyId models `generateKeyId()`: `'key_' + randomBytes(8)
.toString('hex')`, with the random bytes as the explicit argument. -/
def generateKeyId (bs : List Nat) : String :=
  "key_" ++ bytesToHex bs

/-- loadKeys models `loadKeys()`: a missing file and a file whose content
fails `JSON.parse` both yield `{ keys: [] }`; otherwise the parsed data. -/
def loadKeys : FileContent → KeysData
  | .missing => ⟨[]⟩
  | .corrupt => ⟨[]⟩
  | .stored d => d

/-- applyWrite applies the write effect of an operation to the file:
`none` means `saveKeys` was never called, `some d` means the document
was overwritten with `d`. -/
def applyWrite (file : FileContent) : Option KeysData → FileContent
  | none => file
  | some d => .stored d

/-- AddEnv bundles the external inputs consumed by one `addKey` call:
the 48 key bytes, the 8 id bytes, and the ISO timestamp. -/
structure AddEnv where
  keyBytes : List Nat
  idBytes : List Nat
  now : String

/-- addKey models `addKey(name)`.  It returns the pair (created record,
raw api key) — the JS result `{...keyInfo, apiKey}` — together with the
write effect (always a write of the old keys plus the new record). -/
def addKey (h : String → String) (name : String) (env : AddEnv)
    (file : FileContent) : (KeyRecord × String) × Option KeysData :=
  let apiKey := generateApiKey env.keyBytes
  let keyHash := hashKey h apiKey
  let keyPfx := jsSubstring0 apiKey 12 ++ "..."
  let id := generateKeyId env.idBytes
  let data := loadKeys file
  let keyInfo : KeyRecord := ⟨id, name, keyHash, keyPfx, env.now, true⟩
  ((keyInfo, apiKey), some ⟨data.keys ++ [keyInfo]⟩)

/-- removeKey models `removeKey(id)`: filter out matching records, and
persist exactly when the length shrank. -/
def removeKey (id : String) (file : FileContent) : Bool × Option KeysData :=
  let data := loadKeys file
  let initialLength := data.keys.length
  let kept := data.keys.filter (fun k => k.id != id)
  if kept.length < initialLength then (true, some ⟨kept⟩) else (false, none)

/-- setEnabledFirst models the in-place mutation `key.enabled = b` of the
record found by `data.keys.find(k => k.id === id)`: the first record with
the given id has its `enabled` field set to `b`, the rest are untouched. -/
def setEnabledFirst (b : Bool) (id : String) : List KeyRecord → List KeyRecord
  | [] => []
  | k :: ks =>
    if k.id == id then { k with enabled := b } :: ks
    else k :: setEnabledFirst b id ks

/-- disableKey models `disableKey(id)`: if a record with the id exists,
set its `enabled` to `false` and persist; otherwise report not found. -/
def disableKey (id : String) (file : FileContent) : Bool × Option KeysData :=
  let data := loadKeys file
  match data.keys.find? (fun k => k.id == id) with
  | some _ => (true, some ⟨setEnabledFirst false id data.keys⟩)
  | none => (false, none)

/-- enableKey models `enableKey(id)`: dual of `disableKey`. -/
def enableKey (id : String) (file : FileContent) : Bool × Option KeysData :=
  let data := loadKeys file
  match data.keys.find? (fun k => k.id == id) with
  | some _ => (true, some ⟨setEnabledFirst true id data.keys⟩)
  | none => (false, none)

/-- validateKey models `validateKey(apiKey)`: null/non-string (and the
falsy empty string) are invalid, then the `startsWith(KEY_PREFIX)` format
check, then lookup of the hash among the stored records; a match is
projected to `{ id, name, enabled, createdAt }`. -/
def validateKey (h : String → String) (apiKey : JsValue)
    (file : FileContent) : Option ValInfo :=
  match apiKey with
  | .null => none
  | .nonString => none
  | .str s =>
    if s == "" then none
    else if !(jsStartsWith s KEY_PFX) then none
    else
      let keyHash := hashKey h s
      let data := loadKeys file
      match data.keys.find? (fun k => k.keyHash == keyHash) with
      | none => none
      | some key => some ⟨key.id, key.name, key.enabled, key.createdAt⟩

/-- listKeys models `listKeys()`: every record projected to
`{ id, name, keyPrefix, enabled, createdAt }`, in stored order. -/
def listKeys (file : FileContent) : List ListedKey :=
  (loadKeys file).keys.map (fun k => ⟨k.id, k.name, k.keyPfx, k.enabled, k.createdAt⟩)

/-- getEnabledKeyCount models `getEnabledKeyCount()`. -/
def getEnabledKeyCount (file : FileContent) : Nat :=
  ((loadKeys file).keys.filter (fun k => k.enabled)).length

/-- hasKeys models `hasKeys()`: `data.keys.length > 0`. -/
def hasKeys (file : FileContent) : Bool :=
  decide ((loadKeys file).keys.length > 0)

/-- PUBLIC_ENDPOINTS is the allow-list constant of the middleware. -/
def PUBLIC_ENDPOINTS : List String := ["/health"]

/-- isPublicEndpoint models `isPublicEndpoint(path)`: exact match or
`path.startsWith(ep + '/')` against the allow-list. -/
def isPublicEndpoint (path : String) : Bool :=
  PUBLIC_ENDPOINTS.any (fun ep => path == ep || jsStartsWith path (ep ++ "/"))

/-- Request models the parts of the Express request the middleware reads:
the path and the `x-api-key` header (absent = `none`). -/
structure Request where
  path : String
  xApiKey : Option String
deriving DecidableEq

/-- Decision models the middleware outcome: `next()` was called (with the
validated projection attached as `req.apiKeyInfo` when present), or a
rejection `res.status(st).json({error: {type, message}})`. -/
inductive Decision where
  | accepted (apiKeyInfo : Option ValInfo)
  | rejected (status : Nat) (errType : String) (message : String)
deriving DecidableEq

/-- apiKeyMiddleware models `apiKeyMiddleware(req, res, next)`.  The
`SKIP_API_KEY_AUTH` environment variable is the parameter `skipEnv`
(`none` = unset).  The empty-string header case follows JS truthiness of
`if (!apiKey)`. -/
def apiKeyMiddleware (h : String → String) (skipEnv : Option String)
    (req : Request) (file : FileContent) : Decision :=
  if isPublicEndpoint req.path then .accepted none
  else if skipEnv == some "true" then .accepted none
  else if !(hasKeys file) then
    .rejected 503 "configuration_error"
      "No API keys configured. Please run: npm run api-keys:add"
  else
    match req.xApiKey with
    | none =>
      .rejected 401 "authentication_error"
        "Missing API key. Please provide x-api-key header."
    | some s =>
      if s == "" then
        .rejected 401 "authentication_error"
          "Missing API key. Please provide x-api-key header."
      else
        match validateKey h (.str s) file with
        | none => .rejected 401 "authentication_error" "Invalid API key."
        | some info =>
          if !info.enabled then
            .rejected 401 "authentication_error" "API key is disabled."
          else .accepted (some info)

/-- AuthStatus models the object returned by `getAuthStatus()`. -/
structure AuthStatus where
  enabled : Bool
  keyCount : Nat
  isDisabled : Bool
  message : String
deriving DecidableEq

/-- getAuthStatus models `getAuthStatus()`: the status object computed
from the enabled-key count, store non-emptiness, and the override flag. -/
def getAuthStatus (skipEnv : Option String) (file : FileContent) : AuthStatus :=
  let keyCount := getEnabledKeyCount file
  let hasAnyKeys := hasKeys file
  let isDisabled := skipEnv == some "true"
  { enabled := !isDisabled && hasAnyKeys
    keyCount := keyCount
    isDisabled := isDisabled
    message :=
      if isDisabled then "API Key Auth: DISABLED (SKIP_API_KEY_AUTH=true)"
      else if hasAnyKeys then
        "API Key Auth: Enabled (" ++ toString keyCount ++ " active key"
          ++ (if keyCount != 1 then "s" else "") ++ ")"
      else "API Key Auth: No keys configured!" }

/-! ## Helper lemmas -/

/-- toList distributes over String append. -/
theorem toList_append (s t : String) : (s ++ t).toList = s.toList ++ t.toList := rfl

/-- A string starts with its own prefix part. -/
theorem jsStartsWith_append (p r : String) : jsStartsWith (p ++ r) p = true := by
  simp [jsStartsWith, toList_append, List.isPrefixOf_iff_prefix]

/-- getD stays in the list when the default is a member. -/
theorem getD_mem_of_default_mem {l : List Char} {d : Char} (hd : d ∈ l) (n : Nat) :
    l.getD n d ∈ l := by
  rw [List.getD_eq_getElem?_getD]
  rcases Nat.lt_or_ge n l.length with h | h
  · rw [List.getElem?_eq_getElem h]
    exact List.getElem_mem h
  · rw [List.getElem?_eq_none h]
    exact hd

/-- Shape of a generated key: the literal prefix plus 48 alphabet chars. -/
theorem generateApiKey_shape (bytes : List Nat) :
    ∃ tail : List Char,
      generateApiKey bytes = KEY_PFX ++ String.mk tail
      ∧ tail.length = KEY_RANDOM_LENGTH
      ∧ ∀ c ∈ tail, c ∈ KEY_CHARS := by
  refine ⟨(List.range KEY_RANDOM_LENGTH).map
    (fun i => KEY_CHARS.getD ((bytes.getD i 0) % KEY_CHARS.length) 'a'), rfl, by simp, ?_⟩
  intro c hc
  rcases List.mem_map.mp hc with ⟨i, _, rfl⟩
  exact getD_mem_of_default_mem (by decide) _

/-- A generated key passes the startsWith format check. -/
theorem generateApiKey_startsWith (bytes : List Nat) :
    jsStartsWith (generateApiKey bytes) KEY_PFX = true := by
  rcases generateApiKey_shape bytes with ⟨tail, heq, -, -⟩
  rw [heq]; exact jsStartsWith_append _ _

/-- A string passing the startsWith check for the key tag is not empty. -/
theorem ne_empty_of_jsStartsWith {s : String} (h : jsStartsWith s KEY_PFX = true) :
    (s == "") = false := by
  rcases s with ⟨l⟩
  cases l with
  | nil => simp [jsStartsWith, KEY_PFX] at h
  | cons a l => simp [BEq.beq, String.ext_iff]

/-- validateKey rejects a string failing the prefix format check. -/
theorem validateKey_no_tag (h : String → String) (file : FileContent)
    (s : String) (hs : jsStartsWith s KEY_PFX = false) :
    validateKey h (.str s) file = none := by
  unfold validateKey
  cases hse : (s == "") with
  | true => simp [hse]
  | false => simp [hse, hs]

/-- validateKey rejects a string whose hash matches no stored record. -/
theorem validateKey_unknown_hash (h : String → String) (file : FileContent)
    (s : String)
    (hf : (loadKeys file).keys.find? (fun k => k.keyHash == hashKey h s) = none) :
    validateKey h (.str s) file = none := by
  unfold validateKey
  cases hse : (s == "") with
  | true => simp [hse]
  | false =>
    cases hsw : jsStartsWith s KEY_PFX with
    | false => simp [hse, hsw]
    | true => simp [hse, hsw, hf]

/-- validateKey projects the first record whose hash matches. -/
theorem validateKey_found (h : String → String) (file : FileContent)
    (s : String) (k : KeyRecord) (hs : jsStartsWith s KEY_PFX = true)
    (hf : (loadKeys file).keys.find? (fun r => r.keyHash == hashKey h s) = some k) :
    validateKey h (.str s) file = some ⟨k.id, k.name, k.enabled, k.createdAt⟩ := by
  unfold validateKey
  simp [ne_empty_of_jsStartsWith hs, hs, hf]

/-! ## Claim theorems -/

/-- C2: validateKey fails closed and hides the hash: null and non-string
inputs, strings without the expected prefix, and strings whose hash
matches no stored record all yield the same invalid result `none`; on a
hash match it returns exactly the projection `{id, name, enabled,
createdAt}` of the matched record — a `ValInfo`, which has no hash
field — regardless of the record's `enabled` value. -/
theorem validateKey_fails_closed (h : String → String) (file : FileContent) :
    validateKey h .null file = none
  ∧ validateKey h .nonString file = none
  ∧ (∀ s : String, jsStartsWith s KEY_PFX = false → validateKey h (.str s) file = none)
  ∧ (∀ s : String,
      (loadKeys file).keys.find? (fun k => k.keyHash == hashKey h s) = none →
      validateKey h (.str s) file = none)
  ∧ (∀ (s : String) (k : KeyRecord), jsStartsWith s KEY_PFX = true →
      (loadKeys file).keys.find? (fun r => r.keyHash == hashKey h s) = some k →
      validateKey h (.str s) file = some ⟨k.id, k.name, k.enabled, k.createdAt⟩) :=
  ⟨rfl, rfl, validateKey_no_tag h file, validateKey_unknown_hash h file,
    validateKey_found h file⟩

/-- Witness for C2: a concrete store where a matched but disabled record
is still projected (enabled = false in the result, no hash field). -/
theorem validateKey_fails_closed_witness :
    validateKey (fun _ => "W") (.str "sk-ant-AAA")
      (.stored ⟨[⟨"k1", "n", "sha256:W", "sk-ant-AAA...", "t", false⟩]⟩)
      = some ⟨"k1", "n", false, "t"⟩ :=
  (validateKey_fails_closed (fun _ => "W")
      (.stored ⟨[⟨"k1", "n", "sha256:W", "sk-ant-AAA...", "t", false⟩]⟩)).2.2.2.2
    "sk-ant-AAA" ⟨"k1", "n", "sha256:W", "sk-ant-AAA...", "t", false⟩
    (by decide) (by decide)

/-- C9 counterexample: the literal string "sk-ant-" (7 characters, far
shorter than the fixed generated length of 7 + 48) is accepted by
validateKey against a store holding its hash, so validation does not
apply the generated length/alphabet format to its input. -/
theorem validateKey_accepts_nonformat_input :
    validateKey (fun _ => "D") (JsValue.str "sk-ant-")
      (FileContent.stored ⟨[⟨"k1", "n", "sha256:D", "sk-ant-...", "t", true⟩]⟩)
      = some ⟨"k1", "n", true, "t"⟩
  ∧ "sk-ant-".toList.length < KEY_PFX.toList.length + KEY_RANDOM_LENGTH := by
  decide

/-- C9 amended: every generated secret is the fixed literal prefix
followed by exactly KEY_RANDOM_LENGTH = 48 characters drawn from the
fixed 62-symbol alphanumeric alphabet, and generation and validation
share the fixed prefix constant — but validation's format check
verifies only the prefix (a generated key passes it; any string failing
it is rejected), not the length or alphabet. -/
theorem generateApiKey_format (bytes : List Nat) :
    (∃ tail : List Char,
      generateApiKey bytes = KEY_PFX ++ String.mk tail
      ∧ tail.length = KEY_RANDOM_LENGTH
      ∧ ∀ c ∈ tail, c ∈ KEY_CHARS)
  ∧ KEY_CHARS.length = 62
  ∧ KEY_RANDOM_LENGTH = 48
  ∧ jsStartsWith (generateApiKey bytes) KEY_PFX = true
  ∧ (∀ (h : String → String) (file : FileContent) (s : String),
      jsStartsWith s KEY_PFX = false → validateKey h (.str s) file = none) :=
  ⟨generateApiKey_shape bytes, by decide, rfl, generateApiKey_startsWith bytes,
    fun h file s hs => validateKey_no_tag h file s hs⟩

/-- Witness for C9 amended: at concrete inputs, a prefix-less string is
rejected by validation. -/
theorem generateApiKey_format_witness :
    validateKey (fun _ => "W2") (.str "bad-key") .missing = none :=
  (generateApiKey_format []).2.2.2.2 (fun _ => "W2") .missing "bad-key" (by decide)

/-- C1: the gatekeeper middleware decides in short-circuit order: public
allow-list path (exact or path-prefix match against "/health") → accept;
else override variable literally "true" → accept (any other value or
absence leaves authentication active); else empty store → 503
configuration_error; else absent (or falsy-empty) x-api-key header → 401
missing-credential message; else credential not validating → 401 invalid
message; else matched record disabled → 401 disabled message; else
accept with the validated non-secret projection attached. -/
theorem apiKeyMiddleware_decision (h : String → String) (skipEnv : Option String)
    (req : Request) (file : FileContent) :
    (isPublicEndpoint req.path = (req.path == "/health" || jsStartsWith req.path "/health/"))
  ∧ (isPublicEndpoint req.path = true →
      apiKeyMiddleware h skipEnv req file = .accepted none)
  ∧ (isPublicEndpoint req.path = false → skipEnv = some "true" →
      apiKeyMiddleware h skipEnv req file = .accepted none)
  ∧ (isPublicEndpoint req.path = false → skipEnv ≠ some "true" → hasKeys file = false →
      apiKeyMiddleware h skipEnv req file
        = .rejected 503 "configuration_error"
            "No API keys configured. Please run: npm run api-keys:add")
  ∧ (isPublicEndpoint req.path = false → skipEnv ≠ some "true" → hasKeys file = true →
      req.xApiKey = none ∨ req.xApiKey = some "" →
      apiKeyMiddleware h skipEnv req file
        = .rejected 401 "authentication_error"
            "Missing API key. Please provide x-api-key header.")
  ∧ (∀ s : String, isPublicEndpoint req.path = false → skipEnv ≠ some "true" →
      hasKeys file = true → req.xApiKey = some s → s ≠ "" →
      validateKey h (.str s) file = none →
      apiKeyMiddleware h skipEnv req file
        = .rejected 401 "authentication_error" "Invalid API key.")
  ∧ (∀ (s : String) (info : ValInfo), isPublicEndpoint req.path = false →
      skipEnv ≠ some "true" → hasKeys file = true → req.xApiKey = some s → s ≠ "" →
      validateKey h (.str s) file = some info → info.enabled = false →
      apiKeyMiddleware h skipEnv req file
        = .rejected 401 "authentication_error" "API key is disabled.")
  ∧ (∀ (s : String) (info : ValInfo), isPublicEndpoint req.path = false →
      skipEnv ≠ some "true" → hasKeys file = true → req.xApiKey = some s → s ≠ "" →
      validateKey h (.str s) file = some info → info.enabled = true →
      apiKeyMiddleware h skipEnv req file = .accepted (some info)) := by
  refine ⟨?_, ?_, ?_, ?_, ?_, ?_, ?_, ?_⟩
  · simp [isPublicEndpoint, PUBLIC_ENDPOINTS]
  · intro hp
    simp [apiKeyMiddleware, hp]
  · intro hp hsk
    simp [apiKeyMiddleware, hp, hsk]
  · intro hp hsk hk
    simp [apiKeyMiddleware, hp, hsk, hk]
  · intro hp hsk hk hx
    rcases hx with hx | hx <;> simp [apiKeyMiddleware, hp, hsk, hk, hx]
  · intro s hp hsk hk hx hs hv
    simp [apiKeyMiddleware, hp, hsk, hk, hx, hs, hv]
  · intro s info hp hsk hk hx hs hv he
    simp [apiKeyMiddleware, hp, hsk, hk, hx, hs, hv, he]
  · intro s info hp hsk hk hx hs hv he
    simp [apiKeyMiddleware, hp, hsk, hk, hx, hs, hv, he]

/-- Witness for C1: with one enabled matching record and no override, a
protected-path request carrying the right key is accepted with the
projection attached. -/
theorem apiKeyMiddleware_decision_witness :
    apiKeyMiddleware (fun _ => "Z") none ⟨"/v1/x", some "sk-ant-abc"⟩
      (.stored ⟨[⟨"k1", "n", "sha256:Z", "sk-ant-abc...", "t", true⟩]⟩)
      = .accepted (some ⟨"k1", "n", true, "t"⟩) :=
  (apiKeyMiddleware_decision (fun _ => "Z") none ⟨"/v1/x", some "sk-ant-abc"⟩
      (.stored ⟨[⟨"k1", "n", "sha256:Z", "sk-ant-abc...", "t", true⟩]⟩)).2.2.2.2.2.2.2
    "sk-ant-abc" ⟨"k1", "n", true, "t"⟩ (by decide) (by decide) (by decide) rfl
    (by decide) (by decide) rfl

/-- C3 counterexample: addKey with the empty name does not fail — it
creates a record with empty name, persists it, and returns it; no
ValidationError exists anywhere in the manager. -/
theorem addKey_empty_name_not_rejected :
    ((addKey (fun s => s) "" ⟨[], [], "t0"⟩ .missing).1.1).name = ""
  ∧ ((addKey (fun s => s) "" ⟨[], [], "t0"⟩ .missing).2).isSome = true
  ∧ applyWrite .missing (addKey (fun s => s) "" ⟨[], [], "t0"⟩ .missing).2
      = .stored ⟨[(addKey (fun s => s) "" ⟨[], [], "t0"⟩ .missing).1.1]⟩ := by
  decide

/-- C3 amended: addKey performs no name validation; for every name
(including empty or whitespace-only) it generates a secret, computes
id, hash, and prefix, appends a new record with that name, persists the
full store, and returns the full record including the raw secret. -/
theorem addKey_no_validation (h : String → String) (name : String) (env : AddEnv)
    (file : FileContent) :
    ((addKey h name env file).1.1).name = name
  ∧ ((addKey h name env file).1.1).keyHash = hashKey h ((addKey h name env file).1.2)
  ∧ ((addKey h name env file).1.1).keyPfx
      = jsSubstring0 ((addKey h name env file).1.2) 12 ++ "..."
  ∧ ((addKey h name env file).1.1).id = generateKeyId env.idBytes
  ∧ ((addKey h name env file).1.1).createdAt = env.now
  ∧ ((addKey h name env file).1.1).enabled = true
  ∧ (addKey h name env file).1.2 = generateApiKey env.keyBytes
  ∧ (addKey h name env file).2
      = some ⟨(loadKeys file).keys ++ [(addKey h name env file).1.1]⟩ :=
  ⟨rfl, rfl, rfl, rfl, rfl, rfl, rfl, rfl⟩

/-- C5: with corrupt backing content, listKeys returns the empty
collection instead of raising, loadKeys degrades to the empty in-memory
store, and a subsequent addKey succeeds, overwriting the corrupt
document with a store holding exactly the new record. -/
theorem corrupt_store_degrades :
    listKeys .corrupt = []
  ∧ loadKeys .corrupt = ⟨[]⟩
  ∧ (∀ (h : String → String) (name : String) (env : AddEnv),
      (addKey h name env .corrupt).2 = some ⟨[(addKey h name env .corrupt).1.1]⟩
      ∧ applyWrite .corrupt (addKey h name env .corrupt).2
          = .stored ⟨[(addKey h name env .corrupt).1.1]⟩) :=
  ⟨rfl, rfl, fun _h _name _env => ⟨rfl, rfl⟩⟩

/-- C6 counterexample: two store states with the same override state
(unset) and the same enabled-key count (0) — the empty store and a store
with one disabled key — produce different status outputs, so the status
summary is not a function of those two inputs alone. -/
theorem getAuthStatus_not_fn_of_two :
    (getEnabledKeyCount (.stored ⟨[]⟩)
      == getEnabledKeyCount (.stored ⟨[⟨"k1", "n", "h1", "p", "t", false⟩]⟩)) = true
  ∧ (getAuthStatus none (.stored ⟨[]⟩)
      == getAuthStatus none (.stored ⟨[⟨"k1", "n", "h1", "p", "t", false⟩]⟩)) = false := by
  decide

/-- C6 amended: the status summary is a pure function of three inputs —
override flag state, enabled-key count, and store non-emptiness: any two
states agreeing on all three yield the same output; the message is the
tri-state disabled-by-override / enabled-with-N-keys (store nonempty) /
no-keys-configured (store empty) text. -/
theorem getAuthStatus_pure_three_inputs (skip1 skip2 : Option String)
    (f1 f2 : FileContent)
    (hs : (skip1 == some "true") = (skip2 == some "true"))
    (hc : getEnabledKeyCount f1 = getEnabledKeyCount f2)
    (hk : hasKeys f1 = hasKeys f2) :
    getAuthStatus skip1 f1 = getAuthStatus skip2 f2
  ∧ ((skip1 == some "true") = true →
      (getAuthStatus skip1 f1).message = "API Key Auth: DISABLED (SKIP_API_KEY_AUTH=true)")
  ∧ ((skip1 == some "true") = false → hasKeys f1 = true →
      (getAuthStatus skip1 f1).message
        = "API Key Auth: Enabled (" ++ toString (getEnabledKeyCount f1) ++ " active key"
          ++ (if getEnabledKeyCount f1 != 1 then "s" else "") ++ ")")
  ∧ ((skip1 == some "true") = false → hasKeys f1 = false →
      (getAuthStatus skip1 f1).message = "API Key Auth: No keys configured!") := by
  refine ⟨?_, ?_, ?_, ?_⟩
  · simp only [getAuthStatus, hs, hc, hk]
  · intro hd
    simp [getAuthStatus, hd]
  · intro hd hhk
    simp [getAuthStatus, hd, hhk]
  · intro hd hhk
    simp [getAuthStatus, hd, hhk]

/-- Witness for C6 amended: two different one-disabled-key stores under
two different non-"true" override values yield equal statuses. -/
theorem getAuthStatus_pure_three_inputs_witness :
    getAuthStatus (some "x") (.stored ⟨[⟨"k1", "a", "h1", "p1", "t1", false⟩]⟩)
      = getAuthStatus none (.stored ⟨[⟨"k2", "b", "h2", "p2", "t2", false⟩]⟩) :=
  (getAuthStatus_pure_three_inputs (some "x") none
      (.stored ⟨[⟨"k1", "a", "h1", "p1", "t1", false⟩]⟩)
      (.stored ⟨[⟨"k2", "b", "h2", "p2", "t2", false⟩]⟩)
      (by decide) (by decide) (by decide)).1

/-- Length in characters of any generated key: 7 tag chars + 48. -/
theorem generateApiKey_toList_length (bytes : List Nat) :
    (generateApiKey bytes).toList.length = 55 := by
  rcases generateApiKey_shape bytes with ⟨tail, heq, hlen, -⟩
  rw [heq, toList_append]
  simp [hlen, KEY_PFX, KEY_RANDOM_LENGTH]

/-- C7: after addKey(name), listKeys contains exactly one more entry, in
insertion order (the old projections unchanged, the new one appended
last), whose name matches, whose visible prefix field is a strict prefix
(the first 12 characters of the 55-character raw secret) followed by the
ellipsis marker "...", and the listKeys projection carries no hash field:
rewriting every record's hash arbitrarily leaves listKeys unchanged. -/
theorem listKeys_after_addKey (h : String → String) (name : String) (env : AddEnv)
    (file : FileContent) :
    listKeys (applyWrite file (addKey h name env file).2)
      = listKeys file
        ++ [⟨((addKey h name env file).1.1).id, name,
             ((addKey h name env file).1.1).keyPfx, true, env.now⟩]
  ∧ (listKeys (applyWrite file (addKey h name env file).2)).length
      = (listKeys file).length + 1
  ∧ ((addKey h name env file).1.1).keyPfx
      = jsSubstring0 ((addKey h name env file).1.2) 12 ++ "..."
  ∧ (jsSubstring0 ((addKey h name env file).1.2) 12).toList
      <+: ((addKey h name env file).1.2).toList
  ∧ ((jsSubstring0 ((addKey h name env file).1.2) 12).toList).length
      < (((addKey h name env file).1.2).toList).length
  ∧ (∀ (d : KeysData) (g : KeyRecord → String),
      listKeys (.stored ⟨d.keys.map (fun k => { k with keyHash := g k })⟩)
        = listKeys (.stored d)) := by
  refine ⟨?_, ?_, rfl, ?_, ?_, ?_⟩
  · simp [listKeys, addKey, applyWrite, loadKeys]
  · simp [listKeys, addKey, applyWrite, loadKeys]
  · exact List.take_prefix _ _
  · have hl := generateApiKey_toList_length env.keyBytes
    show ((generateApiKey env.keyBytes).toList.take 12).length
      < (generateApiKey env.keyBytes).toList.length
    rw [List.length_take, hl]
    decide
  · intro d g
    simp [listKeys, loadKeys, List.map_map]

/-- C8: on an id matching no record, removeKey, disableKey and enableKey
each return false without writing: the write effect is none and the
backing document is unchanged. -/
theorem unknown_id_not_found (id : String) (file : FileContent)
    (hid : ∀ k ∈ (loadKeys file).keys, k.id ≠ id) :
    removeKey id file = (false, none)
  ∧ disableKey id file = (false, none)
  ∧ enableKey id file = (false, none)
  ∧ applyWrite file (removeKey id file).2 = file
  ∧ applyWrite file (disableKey id file).2 = file
  ∧ applyWrite file (enableKey id file).2 = file := by
  have hfilter : (loadKeys file).keys.filter (fun k => k.id != id) = (loadKeys file).keys :=
    List.filter_eq_self.mpr (fun k hk => by simp [hid k hk])
  have hfind : (loadKeys file).keys.find? (fun k => k.id == id) = none :=
    List.find?_eq_none.mpr (fun k hk => by simp [hid k hk])
  have h1 : removeKey id file = (false, none) := by
    simp [removeKey, hfilter]
  have h2 : disableKey id file = (false, none) := by
    simp [disableKey, hfind]
  have h3 : enableKey id file = (false, none) := by
    simp [enableKey, hfind]
  exact ⟨h1, h2, h3, by rw [h1]; rfl, by rw [h2]; rfl, by rw [h3]; rfl⟩

/-- Witness for C8: a concrete one-record store and a non-matching id. -/
theorem unknown_id_not_found_witness :
    removeKey "zzz" (.stored ⟨[⟨"k1", "n", "h1", "p", "t", true⟩]⟩) = (false, none)
  ∧ disableKey "zzz" (.stored ⟨[⟨"k1", "n", "h1", "p", "t", true⟩]⟩) = (false, none)
  ∧ enableKey "zzz" (.stored ⟨[⟨"k1", "n", "h1", "p", "t", true⟩]⟩) = (false, none) := by
  have hh := unknown_id_not_found "zzz" (.stored ⟨[⟨"k1", "n", "h1", "p", "t", true⟩]⟩)
    (by decide)
  exact ⟨hh.1, hh.2.1, hh.2.2.1⟩

/-- find? over an appended singleton whose hash is the target, when no
earlier record carries the target hash. -/
theorem find?_append_last_match (L : List KeyRecord) (r : KeyRecord) (target : String)
    (hL : ∀ k ∈ L, k.keyHash ≠ target) (hr : r.keyHash = target) :
    (L ++ [r]).find? (fun k => k.keyHash == target) = some r := by
  rw [List.find?_append, List.find?_eq_none.mpr (fun k hk => by simp [hL k hk])]
  simp [hr]

/-- C4: the record returned by addKey has stored hash equal to hashKey of
the returned raw key, and validateKey on that raw key against the
persisted store succeeds with enabled = true (under the spec's standing
assumption that the fresh hash collides with no existing record). -/
theorem addKey_roundtrip (h : String → String) (name : String) (env : AddEnv)
    (file : FileContent)
    (hfresh : ∀ k ∈ (loadKeys file).keys,
      k.keyHash ≠ hashKey h (generateApiKey env.keyBytes)) :
    ((addKey h name env file).1.1).keyHash = hashKey h ((addKey h name env file).1.2)
  ∧ validateKey h (.str ((addKey h name env file).1.2))
      (applyWrite file (addKey h name env file).2)
      = some ⟨((addKey h name env file).1.1).id, name, true, env.now⟩ := by
  refine ⟨rfl, ?_⟩
  exact validateKey_found h
    (.stored ⟨(loadKeys file).keys ++ [(addKey h name env file).1.1]⟩)
    (generateApiKey env.keyBytes) (addKey h name env file).1.1
    (generateApiKey_startsWith env.keyBytes)
    (find?_append_last_match (loadKeys file).keys (addKey h name env file).1.1
      (hashKey h (generateApiKey env.keyBytes)) hfresh rfl)

/-- Witness for C4: round-trip on an initially missing store. -/
theorem addKey_roundtrip_witness :
    validateKey (fun _ => "V") (.str ((addKey (fun _ => "V") "nm" ⟨[], [], "t1"⟩ .missing).1.2))
      (applyWrite .missing (addKey (fun _ => "V") "nm" ⟨[], [], "t1"⟩ .missing).2)
      = some ⟨((addKey (fun _ => "V") "nm" ⟨[], [], "t1"⟩ .missing).1.1).id, "nm", true, "t1"⟩ :=
  (addKey_roundtrip (fun _ => "V") "nm" ⟨[], [], "t1"⟩ .missing
    (by simp [loadKeys])).2

/-- setEnabledFirst preserves the list length. -/
theorem setEnabledFirst_length (b : Bool) (id : String) (l : List KeyRecord) :
    (setEnabledFirst b id l).length = l.length := by
  induction l with
  | nil => rfl
  | cons k ks ih =>
    cases hk : (k.id == id) with
    | true => simp [setEnabledFirst, hk]
    | false => simp [setEnabledFirst, hk, ih]

/-- Pointwise effect of setEnabledFirst: the record at the first matching
index gets `enabled := b` and nothing else changes; every other position
is untouched. -/
theorem setEnabledFirst_getElem? (b : Bool) (id : String) (l : List KeyRecord)
    (i : Nat) :
    (setEnabledFirst b id l)[i]?
      = if i = l.findIdx (fun k => k.id == id)
        then (l[i]?).map (fun k => { k with enabled := b })
        else l[i]? := by
  induction l generalizing i with
  | nil =>
    simp [setEnabledFirst]
  | cons k ks ih =>
    cases hk : (k.id == id) with
    | true =>
      cases i with
      | zero => simp [setEnabledFirst, hk, List.findIdx_cons]
      | succ n => simp [setEnabledFirst, hk, List.findIdx_cons]
    | false =>
      cases i with
      | zero => simp [setEnabledFirst, hk, List.findIdx_cons]
      | succ n => simp [setEnabledFirst, hk, List.findIdx_cons, ih]

/-- C10: on an id matching a record, disableKey and enableKey persist a
store of the same length in which the record at the first matching index
equals the original record with only `enabled` replaced, and every other
position holds the identical original record — so id, name, stored hash,
visible prefix, creation timestamp, all other records, and the order are
unchanged in the persisted store. -/
theorem enable_disable_frame (id : String) (file : FileContent)
    (hfound : ((loadKeys file).keys.find? (fun k => k.id == id)).isSome = true) :
    (∃ d1 : KeysData,
      disableKey id file = (true, some d1)
      ∧ applyWrite file (disableKey id file).2 = .stored d1
      ∧ d1.keys.length = (loadKeys file).keys.length
      ∧ ∀ i : Nat,
          d1.keys[i]?
            = if i = (loadKeys file).keys.findIdx (fun k => k.id == id)
              then ((loadKeys file).keys[i]?).map (fun k => { k with enabled := false })
              else (loadKeys file).keys[i]?)
  ∧ (∃ d2 : KeysData,
      enableKey id file = (true, some d2)
      ∧ applyWrite file (enableKey id file).2 = .stored d2
      ∧ d2.keys.length = (loadKeys file).keys.length
      ∧ ∀ i : Nat,
          d2.keys[i]?
            = if i = (loadKeys file).keys.findIdx (fun k => k.id == id)
              then ((loadKeys file).keys[i]?).map (fun k => { k with enabled := true })
              else (loadKeys file).keys[i]?) := by
  obtain ⟨k, hk⟩ := Option.isSome_iff_exists.mp hfound
  have hd : disableKey id file
      = (true, some ⟨setEnabledFirst false id (loadKeys file).keys⟩) := by
    simp [disableKey, hk]
  have he : enableKey id file
      = (true, some ⟨setEnabledFirst true id (loadKeys file).keys⟩) := by
    simp [enableKey, hk]
  exact ⟨⟨⟨setEnabledFirst false id (loadKeys file).keys⟩, hd, by rw [hd]; rfl,
      setEnabledFirst_length _ _ _, fun i => setEnabledFirst_getElem? false id _ i⟩,
    ⟨⟨setEnabledFirst true id (loadKeys file).keys⟩, he, by rw [he]; rfl,
      setEnabledFirst_length _ _ _, fun i => setEnabledFirst_getElem? true id _ i⟩⟩

/-- Witness for C10: a concrete one-record store and its own id. -/
theorem enable_disable_frame_witness :
    ∃ d1 : KeysData,
      disableKey "k1" (.stored ⟨[⟨"k1", "n", "h1", "p", "t", true⟩]⟩) = (true, some d1) := by
  obtain ⟨⟨d1, hd, -, -, -⟩, -⟩ := enable_disable_frame "k1"
    (.stored ⟨[⟨"k1", "n", "h1", "p", "t", true⟩]⟩) (by decide)
  exact ⟨d1, hd⟩
